import Mathlib

/-!
Verification development for the `genie-drs` DRS archive library
(`src/DRS.js`).

Modelling conventions:
* Byte buffers are `List Nat`; each element of a real buffer is `< 256`.
* JS strings that hold byte data or 4-character type tags are also
  `List Nat` of char codes (so `'slp '` is `[115, 108, 112, 32]`).
* JS 32-bit integer coercions (`|0`, `<<`, `>>`, `&`) are modelled on `Int`
  with explicit `emod`/`fdiv` by powers of two (`>>` on an int32 is a
  floor division, `& 0xFF` a Euclidean remainder).
* `null`/`undefined`-able numeric fields are `Option Int`; `Buffer`
  properties that may be absent are `Option (List Nat)`.
* Asynchronous callbacks are flattened to sequential state transforms;
  the order of state mutations inside a callback is kept.
-/

namespace GenieDRS

/-- `HEADER_SIZE_AOE` from `DRS.js`: base header width in bytes. -/
def HEADER_SIZE_AOE : Nat := 64

/-- `HEADER_SIZE_SWGB` from `DRS.js`: larger-variant header width in bytes. -/
def HEADER_SIZE_SWGB : Nat := 84

/-- `TABLE_META_SIZE` from `DRS.js`. -/
def TABLE_META_SIZE : Nat := 12

/-- `FILE_META_SIZE` from `DRS.js`. -/
def FILE_META_SIZE : Nat := 12

/-- Char codes of the `COPYRIGHT_SWGB` string constant of `DRS.js`:
`'Copyright (c) 2001 LucasArts Entertainment Company LLC'` (54 chars). -/
def COPYRIGHT_SWGB : List Nat :=
  [67, 111, 112, 121, 114, 105, 103, 104, 116, 32, 40, 99, 41, 32, 50, 48,
   48, 49, 32, 76, 117, 99, 97, 115, 65, 114, 116, 115, 32, 69, 110, 116,
   101, 114, 116, 97, 105, 110, 109, 101, 110, 116, 32, 67, 111, 109, 112,
   97, 110, 121, 32, 76, 76, 67]

/-- Char codes of `'JASC-PAL'`, the 8-byte palette-text magic prefix
sniffed in `DRS.prototype.readFile`. -/
def JASC_PAL : List Nat := [74, 65, 83, 67, 45, 80, 65, 76]

/-- Char codes of the tag `'slp '`. -/
def tagSLP : List Nat := [115, 108, 112, 32]

/-- Char codes of the tag `'wav '`. -/
def tagWAV : List Nat := [119, 97, 118, 32]

/-- Char codes of the tag `'bina'`. -/
def tagBINA : List Nat := [98, 105, 110, 97]

/-- Char codes of `buf.toString('ascii')`: Node's legacy `'ascii'`
decoding strips the high bit of every byte, so byte `b` decodes to the
char code `b & 0x7F`, i.e. `b % 128`.  Every place `DRS.js` compares a
decoded buffer slice with a string literal goes through this masking. -/
def asciiCodes (buf : List Nat) : List Nat :=
  buf.map (fun b => b % 128)

/-- JS `ToInt32` coercion: wrap an integer into `[-2^31, 2^31)`.
Applied by the JS operators `<<`, `>>` and `&` to their operands. -/
def toInt32 (n : Int) : Int :=
  (n + 2147483648) % 4294967296 - 2147483648

/-- `parseTableType` from `DRS.js`: unpack a numeric table type (a uint32
read from disk) into the 4 char codes of its tag, most significant byte
first.  The JS loop runs `ext = String.fromCharCode(num & 0xFF) + ext;
num >>= 8` four times; `& 0xFF` is `emod 256` of the int32 value and the
sign-propagating `>> 8` is floor division by 256. -/
def parseTableType (num : Nat) : List Nat :=
  let n0 := toInt32 num
  let n1 := n0.fdiv 256
  let n2 := n1.fdiv 256
  let n3 := n2.fdiv 256
  [(n3 % 256).toNat, (n2 % 256).toNat, (n1 % 256).toNat, (n0 % 256).toNat]

/-- `serializeTableType` from `DRS.js`: pack the char codes of a tag
string into one integer.  The JS loop runs `num = (num << 8) +
str.charCodeAt(i)` for `i = 0..3`; `<<` coerces to int32 while the final
`+` is exact number addition.  `charCodeAt` out of range is modelled as 0
(the claims only use 4-character tags). -/
def serializeTableType (s : List Nat) : Int :=
  let step := fun (num : Int) (c : Nat) => toInt32 (num * 256) + c
  step (step (step (step 0 (s.getD 0 0)) (s.getD 1 0)) (s.getD 2 0))
    (s.getD 3 0)

/-- `buf.readUInt32LE(off)`: little-endian unsigned 32-bit read.
Out-of-range bytes read as 0 (the model is only applied in range). -/
def readUInt32LE (buf : List Nat) (off : Nat) : Nat :=
  buf.getD off 0 + buf.getD (off + 1) 0 * 256 +
    buf.getD (off + 2) 0 * 65536 + buf.getD (off + 3) 0 * 16777216

/-- `buf.readInt32LE(off)` (also awestruct's `t.int32`): little-endian
signed 32-bit read. -/
def readInt32LE (buf : List Nat) (off : Nat) : Int :=
  let u := readUInt32LE buf off
  if u < 2147483648 then (u : Int) else (u : Int) - 4294967296

/-- Model of `fs.read(fd, Buffer.alloc(len), 0, len, pos, cb)`:
`Buffer.alloc` zero-fills, and `fs.read` copies however many bytes exist
at `pos` (fewer than `len` near end of file) without reporting an error;
the callbacks in `DRS.js` ignore `bytesRead`, so the parsed buffer is the
available bytes zero-padded to `len`. -/
def fsReadAlloc (disk : List Nat) (len pos : Nat) : List Nat :=
  let got := (disk.drop pos).take len
  got ++ List.replicate (len - got.length) 0

/-- The header fields produced by `headerStruct` in `DRS.js`. -/
structure DRSHeader where
  copyright : List Nat
  fileVersion : List Nat
  fileType : List Nat
  numTables : Int
  firstFileOffset : Int
deriving DecidableEq, Repr

/-- `headerStruct(isSwgb)` from `DRS.js` applied to a buffer: a 60-byte
copyright field in the SWGB layout, 40 bytes in the base layout, then
`char(4)` version, `char(12)` type, and two little-endian int32s. -/
def parseHeaderStruct (isSwgb : Bool) (buf : List Nat) : DRSHeader :=
  let cw := if isSwgb then 60 else 40
  { copyright := buf.take cw
    fileVersion := (buf.drop cw).take 4
    fileType := (buf.drop (cw + 4)).take 12
    numTables := readInt32LE buf (cw + 16)
    firstFileOffset := readInt32LE buf (cw + 20) }

/-- The parsing `onHeader` performs on the buffer `fs.read` hands it:
set `isSWGB` by comparing `buf.slice(0, COPYRIGHT_SWGB.length)
.toString('ascii')` with `COPYRIGHT_SWGB` — the `'ascii'` decoding masks
every probed byte with `0x7F` — truncate the buffer to `HEADER_SIZE_AOE`
when not SWGB, and parse `headerStruct`. -/
def drsParseHeaderBuf (buf : List Nat) : Bool × DRSHeader :=
  let isSwgb :=
    decide (asciiCodes (buf.take COPYRIGHT_SWGB.length) = COPYRIGHT_SWGB)
  let buf2 := if isSwgb then buf else buf.take HEADER_SIZE_AOE
  (isSwgb, parseHeaderStruct isSwgb buf2)

/-- The header stage of `DRS.prototype.read`: read `HEADER_SIZE_SWGB`
bytes at position 0 (zero-filled past end of file — no error and no
`bytesRead` check anywhere on this path) and parse them. -/
def drsReadHeader (disk : List Nat) : Bool × DRSHeader :=
  drsParseHeaderBuf (fsReadAlloc disk HEADER_SIZE_SWGB 0)

/-- Modelled from the spec's words for comparison (claim C3): a probe
region sized to the larger variant's 60-byte copyright field that must
textually (after ascii decoding) equal the magic copyright string. -/
def specProbeSWGB (buf : List Nat) : Prop :=
  asciiCodes (buf.take 60) = COPYRIGHT_SWGB

instance (buf : List Nat) : Decidable (specProbeSWGB buf) := by
  unfold specProbeSWGB
  infer_instance

/-- A file directory entry as built by `DRS.js` (`newFile`/`onTables`):
`offset`/`size` are `null` until resolved, `buffer` holds the pending
in-memory payload of a freshly put file. -/
structure FileEntry where
  id : Int
  offset : Option Int
  size : Option Int
  type : List Nat
  buffer : Option (List Nat) := none
deriving DecidableEq, Repr

/-- A table as built by `DRS.js`: 4-char tag (`ext`), directory offset,
stored `numFiles` count, and the entry list. -/
structure DRSTable where
  ext : List Nat
  offset : Option Int
  numFiles : Int
  files : List FileEntry
deriving DecidableEq, Repr

/-- The mutable per-archive state used by the builder paths of `DRS.js`:
the table list and the `numTables` property (`undefined` before a
directory read or first table creation). -/
structure DRSState where
  tables : List DRSTable
  numTables : Option Int
deriving DecidableEq, Repr

/-- The entry-parsing loop of `onTables` in `DRS.prototype.read` for one
table: read `n` 12-byte little-endian `(id, offset, size)` records
starting at byte `off`, tagging each entry with the table's `ext`. -/
def parseFileEntries (ext : List Nat) (buf : List Nat) (off : Nat) :
    Nat → List FileEntry
  | 0 => []
  | n + 1 =>
    { id := readInt32LE buf off
      offset := some (readInt32LE buf (off + 4))
      size := some (readInt32LE buf (off + 8))
      type := ext
      buffer := none } :: parseFileEntries ext buf (off + 12) n

/-- `newFile(type, id)` from `DRS.js`: offset and size start `null`. -/
def newFile (type : List Nat) (id : Int) : FileEntry :=
  { id := id, offset := none, size := none, type := type, buffer := none }

/-- The fresh table object created inside `getTable` in `DRS.js`. -/
def freshTable (ty : List Nat) : DRSTable :=
  { ext := ty, offset := none, numFiles := 0, files := [] }

/-- The index of the table the `getTable` loop of `DRS.js` ends with.
The loop assigns `table = drs.tables[i]` and breaks on `table.ext ===
type`; when nothing matches, the loop variable is left holding the LAST
table, which is truthy, so the `if (!table)` creation branch is only
reached when the table list is empty (`none` here). -/
def getTableIdx : List DRSTable → List Nat → Option Nat
  | [], _ => none
  | [_], _ => some 0
  | tb :: tb2 :: rest, ty =>
    if tb.ext = ty then some 0
    else (getTableIdx (tb2 :: rest) ty).map (· + 1)

/-- `getTable(drs, type)` from `DRS.js` as a state transform returning
the index of the table that will be used: an existing index from the
scan, or (only when the table list is empty) a freshly appended table,
updating `drs.numTables = drs.tables.length`. -/
def getTable (s : DRSState) (ty : List Nat) : DRSState × Nat :=
  match getTableIdx s.tables ty with
  | some i => (s, i)
  | none =>
    ({ tables := s.tables ++ [freshTable ty],
       numTables := some ((s.tables.length : Int) + 1) },
     s.tables.length)

/-- The mutations `onbuffer` (from `createFileBufferCallback`) applies to
the pending file object: store the materialized payload and set `size`
to its byte length.  This happens before the file is pushed. -/
def onbufferFile (file : FileEntry) (buffer : List Nat) : FileEntry :=
  { file with buffer := some buffer, size := some (buffer.length : Int) }

/-- The mutations `onbuffer` applies to the target table: push the
completed file and refresh `numFiles` from the entry list length. -/
def onbufferTable (file : FileEntry) (table : DRSTable)
    (buffer : List Nat) : DRSTable :=
  let files := table.files ++ [onbufferFile file buffer]
  { table with files := files, numFiles := (files.length : Int) }

/-- Replace the element at index `i` of a list by `g` applied to it
(models mutation of an aliased table object inside `drs.tables`). -/
def modifyAt : List α → Nat → (α → α) → List α
  | [], _, _ => []
  | x :: xs, 0, g => g x :: xs
  | x :: xs, n + 1, g => x :: modifyAt xs n g

/-- `DRS.prototype.putFile(type, id, data, cb)` for a Buffer payload,
run to completion: make the pending file, pick the table via `getTable`,
then run `onbuffer` with the payload.  Returns the new state and the
file object handed to `cb` (which `onbuffer` calls only after the push).
`createWriteStream` ends in the same `createFileBufferCallback` with the
concatenation of the written chunks. -/
def putFile (s : DRSState) (ty : List Nat) (id : Int) (data : List Nat) :
    DRSState × FileEntry :=
  let file := newFile ty id
  let p := getTable s ty
  ({ p.fst with
      tables := modifyAt p.fst.tables p.snd
        (fun tb => onbufferTable file tb data) },
   onbufferFile file data)

/-- `DRS.prototype.getFiles()`: concatenate the table entry lists in
table order (a `reduce` with array concat). -/
def getFiles (tables : List DRSTable) : List FileEntry :=
  tables.foldl (fun arr tb => arr ++ tb.files) []

/-- `DRS.prototype.getFile(id)`: scan tables in order; in each table scan
entries `files[i]` for `i < numFiles` in order and return the first one
whose `id` matches; return `null` when nothing matches.  The inner loop
is bounded by the stored `numFiles` (JS would throw on an out-of-range
index; under the `numFiles == files.length` invariant the `take`
coincides with the JS loop). -/
def getFile : List DRSTable → Int → Option FileEntry
  | [], _ => none
  | tb :: rest, id =>
    match (tb.files.take tb.numFiles.toNat).find? (fun f => f.id == id) with
    | some f => some f
    | none => getFile rest id

/-- The closed classification outcomes of `DRS.prototype.readFile`'s
dispatch: `SLPFile`, `WAVFile`, `PaletteFile`, plain `DRSFile`. -/
inductive FileClass
  | Sprite
  | Audio
  | Palette
  | Generic
deriving DecidableEq, Repr

/-- The dispatch chain of `DRS.prototype.readFile`: `'slp '` makes an
`SLPFile`, `'wav '` a `WAVFile`, `'bina'` whose first 8 payload bytes
are compared through `buf.slice(0, 8).toString('ascii') === 'JASC-PAL'`
— the `'ascii'` decoding masks each byte with `0x7F` — a `PaletteFile`,
anything else a generic `DRSFile`.  The tag comparisons are plain string
identity (the tag is already a string), with no masking. -/
def classify (type : List Nat) (buf : List Nat) : FileClass :=
  if type = tagSLP then .Sprite
  else if type = tagWAV then .Audio
  else if type = tagBINA ∧ asciiCodes (buf.take 8) = JASC_PAL then .Palette
  else .Generic

/-- Where a read path takes an entry's bytes from: the pending in-memory
payload, or a positioned read against the underlying file. -/
inductive ByteSource
  | memory (payload : List Nat)
  | disk (offset : Option Int) (size : Option Int)
deriving DecidableEq, Repr

/-- The source selection of `DRS.prototype.createReadStream`: when
`file.buffer` is set the stream is pumped from that buffer; otherwise
from `fs.createReadStream` over `[file.offset, file.offset + file.size)`. -/
def createReadStreamSource (f : FileEntry) : ByteSource :=
  match f.buffer with
  | some b => .memory b
  | none => .disk f.offset f.size

/-- The source selection of `DRS.prototype.readFile`: it always issues
`fs.read(fd, Buffer.alloc(file.size), 0, file.size, file.offset, ...)`,
never consulting `file.buffer`. -/
def readFileSource (f : FileEntry) : ByteSource :=
  .disk f.offset f.size

/-- An entry's size bookkeeping is resolved: `size` is non-null, and
equals the byte length of the pending payload when one is present. -/
def sizeResolved (f : FileEntry) : Bool :=
  match f.buffer with
  | some b => f.size == some (b.length : Int)
  | none => f.size != none

/-- Events against one archive handle, for the load-triggering model of
`DRS.prototype.readFile` / `createReadStream` (which start `drs.read`
when `drs.numTables` is falsy) and `getFile` / `getFiles` (which never
start a load). -/
inductive HandleEvent
  | call
  | lookup
  | complete (n : Int)
deriving DecidableEq, Repr

/-- Observable load bookkeeping of one handle: the `numTables` property
(`none` = still `undefined`), how many directory loads are currently in
flight, and how many were ever started. -/
structure HandleState where
  numTables : Option Int
  loadsInFlight : Nat
  loadsStarted : Nat
deriving DecidableEq, Repr

/-- A fresh handle: `numTables` undefined, no loads. -/
def initHandle : HandleState :=
  { numTables := none, loadsInFlight := 0, loadsStarted := 0 }

/-- JS falsiness of the `numTables` guard `if (!this.numTables)`:
`undefined` and `0` are falsy. -/
def jsFalsyNum : Option Int → Bool
  | none => true
  | some n => n == 0

/-- One handle step.  A `call` (readFile/createReadStream) issued while
`numTables` is falsy invokes `drs.read` immediately — `drs.read` has no
guard of its own, so every such call starts its own load.  A `lookup`
(getFile/getFiles) never loads.  A `complete n` is one in-flight load
finishing with `drs.numTables = n` assigned. -/
def handleStep (s : HandleState) : HandleEvent → HandleState
  | .call =>
    if jsFalsyNum s.numTables then
      { s with loadsInFlight := s.loadsInFlight + 1,
               loadsStarted := s.loadsStarted + 1 }
    else s
  | .lookup => s
  | .complete n =>
    { s with numTables := some n, loadsInFlight := s.loadsInFlight - 1 }

/-- Run a trace of handle events from a fresh handle. -/
def runHandle (evs : List HandleEvent) : HandleState :=
  evs.foldl handleStep initHandle

end GenieDRS

namespace GenieDRS

/-! Helper lemmas. -/

theorem getD_take_of_lt (l : List Nat) (n i : Nat) (h : i < n) :
    (l.take n).getD i 0 = l.getD i 0 := by
  rw [List.getD_eq_getElem?_getD, List.getD_eq_getElem?_getD,
    List.getElem?_take, if_pos h]

theorem readInt32LE_take (buf : List Nat) (n off : Nat) (h : off + 3 < n) :
    readInt32LE (buf.take n) off = readInt32LE buf off := by
  unfold readInt32LE readUInt32LE
  rw [getD_take_of_lt _ _ _ (by omega), getD_take_of_lt _ _ _ (by omega),
    getD_take_of_lt _ _ _ (by omega), getD_take_of_lt _ _ _ (by omega)]

theorem fsReadAlloc_length (disk : List Nat) (len pos : Nat) :
    (fsReadAlloc disk len pos).length = len := by
  unfold fsReadAlloc
  simp only [List.length_append, List.length_replicate, List.length_take,
    List.length_drop]
  omega

theorem asciiCodes_getD (l : List Nat) (i : Nat) (h : i < l.length) :
    (asciiCodes l).getD i 0 = l.getD i 0 % 128 := by
  unfold asciiCodes
  rw [List.getD_eq_getElem?_getD, List.getD_eq_getElem?_getD,
    List.getElem?_map, List.getElem?_eq_getElem h]
  simp

/-- A buffer zero-padded past the end of a sub-54-byte input can not
decode (even with the `'ascii'` high-bit masking) to the 54-character
magic string: its byte at index 53 is a padding zero, and `0 & 0x7F = 0`
differs from the magic's `'C'`. -/
theorem probe_fails_on_short (disk : List Nat) (h : disk.length < 54) :
    ¬ (asciiCodes ((fsReadAlloc disk 84 0).take 54) = COPYRIGHT_SWGB) := by
  intro heq
  have h53 := congrArg (fun l => l.getD 53 0) heq
  simp only at h53
  have hlen84 : (fsReadAlloc disk 84 0).length = 84 :=
    fsReadAlloc_length disk 84 0
  have htake : ((fsReadAlloc disk 84 0).take 54).length = 54 := by
    rw [List.length_take, hlen84]
    omega
  rw [asciiCodes_getD _ _ (by omega)] at h53
  rw [getD_take_of_lt _ _ _ (by omega)] at h53
  unfold fsReadAlloc at h53
  have hgot : ((disk.drop 0).take 84).length ≤ 53 := by
    simp only [List.length_take, List.length_drop]
    omega
  rw [List.getD_append_right _ _ _ _ (by omega)] at h53
  rw [List.getD_eq_getElem?_getD, List.getElem?_getD_replicate_default_eq]
    at h53
  have : COPYRIGHT_SWGB.getD 53 0 = 67 := by decide
  rw [this] at h53
  exact absurd h53 (by decide)

end GenieDRS

namespace GenieDRS

/-- C1: the claim says `putFile` on a type tag with no existing table
creates and appends a fresh table (as the function's own doc comment also
states).  Evaluating the code's model on an archive holding one `'slp '`
table and putting a `'bina'` file shows the entry is instead pushed into
the existing `'slp '` table and no `'bina'` table is created: the
`getTable` loop variable still holds the last scanned table after a
failed search, so the `if (!table)` creation branch is dead whenever the
table list is non-empty. -/
theorem putFile_reuses_last_table_on_miss :
    (putFile
        { tables := [{ ext := tagSLP, offset := some 100, numFiles := 0,
                       files := [] }],
          numTables := some 1 } tagBINA 1 [10, 20, 30]).fst =
      { tables := [{ ext := tagSLP, offset := some 100, numFiles := 1,
                     files := [{ id := 1, offset := none, size := some 3,
                                 type := tagBINA,
                                 buffer := some [10, 20, 30] }] }],
        numTables := some 1 } ∧
    ¬ ∃ tb ∈ (putFile
        { tables := [{ ext := tagSLP, offset := some 100, numFiles := 0,
                       files := [] }],
          numTables := some 1 } tagBINA 1 [10, 20, 30]).fst.tables,
        tb.ext = tagBINA := by
  decide

/-- C2: the claim says every operation keeps each table's entries tagged
with that table's own tag.  Evaluating `putFile` on an archive with one
`'wav '` table and a `'bina'` put shows the resulting archive contains a
table holding an entry whose tag differs from the table's tag (the
`getTable` fallback bug misfiles the entry). -/
theorem putFile_breaks_tag_invariant :
    ∃ tb ∈ (putFile
        { tables := [{ ext := tagWAV, offset := some 200, numFiles := 0,
                       files := [] }],
          numTables := some 1 } tagBINA 7 [1, 2]).fst.tables,
      ∃ f ∈ tb.files, f.type ≠ tb.ext := by
  decide

/-- C3 counterexample: on an 84-byte input whose first 54 bytes are the
magic copyright string (then zero padding), the claim's probe — a region
sized to the 60-byte copyright field compared textually with the magic —
does not match, so the claim mandates the base 64-byte layout; the code
nevertheless detects SWGB (it probes only the first 54 bytes, decoded as
high-bit-stripped ASCII) and parses the larger layout with a 60-byte
copyright field. -/
theorem headerProbe_sixty_byte_counterexample :
    (drsReadHeader (COPYRIGHT_SWGB ++ List.replicate 30 0)).fst = true ∧
    (drsReadHeader
        (COPYRIGHT_SWGB ++ List.replicate 30 0)).snd.copyright.length = 60 ∧
    ¬ specProbeSWGB
        (fsReadAlloc (COPYRIGHT_SWGB ++ List.replicate 30 0) 84 0) := by
  decide

/-- C3 amended: variant detection probes the first 54 bytes (the magic
string's own length, not the 60-byte copyright field), decoded as ASCII
with the high bit of each byte stripped.  If the masked bytes equal the
magic, the header is parsed as the 84-byte layout (60-byte copyright
field, table count at byte 76); otherwise the first 64 bytes are parsed
as the base layout (40-byte copyright field, table count at byte 56). -/
theorem headerVariant_detection (disk : List Nat) :
    (drsReadHeader disk).fst =
      decide (asciiCodes ((fsReadAlloc disk 84 0).take 54)
        = COPYRIGHT_SWGB) ∧
    (if asciiCodes ((fsReadAlloc disk 84 0).take 54) = COPYRIGHT_SWGB then
      (drsReadHeader disk).snd.copyright = (fsReadAlloc disk 84 0).take 60 ∧
      (drsReadHeader disk).snd.numTables =
        readInt32LE (fsReadAlloc disk 84 0) 76
    else
      (drsReadHeader disk).snd.copyright = (fsReadAlloc disk 84 0).take 40 ∧
      (drsReadHeader disk).snd.numTables =
        readInt32LE (fsReadAlloc disk 84 0) 56) := by
  have hlen : COPYRIGHT_SWGB.length = 54 := by decide
  by_cases hp : asciiCodes ((fsReadAlloc disk 84 0).take 54)
      = COPYRIGHT_SWGB
  · have hd : decide (asciiCodes ((fsReadAlloc disk 84 0).take 54)
        = COPYRIGHT_SWGB) = true := decide_eq_true hp
    refine ⟨?_, ?_⟩
    · simp only [drsReadHeader, drsParseHeaderBuf, HEADER_SIZE_SWGB, hlen, hd]
    · rw [if_pos hp]
      simp only [drsReadHeader, drsParseHeaderBuf, HEADER_SIZE_SWGB, hlen, hd,
        if_true, parseHeaderStruct]
      exact ⟨trivial, trivial⟩
  · have hd : decide (asciiCodes ((fsReadAlloc disk 84 0).take 54)
        = COPYRIGHT_SWGB) = false := decide_eq_false hp
    refine ⟨?_, ?_⟩
    · simp only [drsReadHeader, drsParseHeaderBuf, HEADER_SIZE_SWGB, hlen, hd]
    · rw [if_neg hp]
      simp only [drsReadHeader, drsParseHeaderBuf, HEADER_SIZE_SWGB,
        HEADER_SIZE_AOE, hlen, hd, Bool.false_eq_true, if_false,
        parseHeaderStruct]
      constructor
      · rw [List.take_take]
        norm_num
      · rw [readInt32LE_take _ _ _ (by omega)]

/-- C4: the claim says reads serve a write-pending entry from its pending
in-memory payload on every read path.  For the entry produced by
`putFile` (payload `[10, 20, 30]`, size 3, offset still `null`),
`createReadStream` does select the in-memory payload, but `readFile`
always issues a positioned disk read at the entry's (null) offset and
never consults the payload — the two paths disagree. -/
theorem readFile_ignores_pending_payload :
    readFileSource
        ((putFile { tables := [], numTables := none }
          tagBINA 1 [10, 20, 30]).snd) = ByteSource.disk none (some 3) ∧
    createReadStreamSource
        ((putFile { tables := [], numTables := none }
          tagBINA 1 [10, 20, 30]).snd) = ByteSource.memory [10, 20, 30] := by
  decide

/-- C5 counterexample: the empty input has fewer than 84 bytes, yet
header parsing raises nothing and yields a fully parsed base-variant
header read from the zero-filled buffer — there is no FormatError (or
any length check) on this path. -/
theorem truncated_header_still_parses :
    ([] : List Nat).length < 84 ∧
    drsReadHeader [] =
      (false,
       { copyright := List.replicate 40 0,
         fileVersion := List.replicate 4 0,
         fileType := List.replicate 12 0,
         numTables := 0, firstFileOffset := 0 }) := by
  decide

/-- Auxiliary for C5: on a sub-84-byte input the read buffer is the
input followed by zero fill up to 84 bytes. -/
theorem fsReadAlloc_pad (disk : List Nat) (h : disk.length < 84) :
    fsReadAlloc disk 84 0 =
      disk ++ List.replicate (84 - disk.length) 0 := by
  unfold fsReadAlloc
  simp [List.take_of_length_le (Nat.le_of_lt h)]

/-- Auxiliary for C5: a file already zero-padded to 84 bytes reads back
unchanged. -/
theorem fsReadAlloc_padded_eq (disk : List Nat) (h : disk.length < 84) :
    fsReadAlloc (disk ++ List.replicate (84 - disk.length) 0) 84 0 =
      disk ++ List.replicate (84 - disk.length) 0 := by
  have hlen : (disk ++ List.replicate (84 - disk.length) 0).length = 84 := by
    simp only [List.length_append, List.length_replicate]
    omega
  simp only [fsReadAlloc, List.drop_zero,
    List.take_of_length_le (Nat.le_of_eq hlen), hlen]
  simp

/-- C5 amended: header parsing never fails on truncated input — `fs.read`
reports no error on a short file and `bytesRead` is ignored, so the
header is parsed exactly as if the file had been zero-padded to 84
bytes.  When the input is moreover shorter than the 54-byte magic
string, the zero padding can never (even after ascii masking) match the
magic, so such inputs always parse as the base variant; truncated inputs
of 54 to 83 bytes may still be detected as SWGB when they begin with the
magic. -/
theorem truncated_header_zero_padded (disk : List Nat)
    (h : disk.length < 84) :
    drsReadHeader disk =
      drsReadHeader (disk ++ List.replicate (84 - disk.length) 0) ∧
    (disk.length < 54 → (drsReadHeader disk).fst = false) := by
  constructor
  · have hfs : fsReadAlloc disk 84 0 =
        fsReadAlloc (disk ++ List.replicate (84 - disk.length) 0) 84 0 := by
      rw [fsReadAlloc_pad disk h, fsReadAlloc_padded_eq disk h]
    simp only [drsReadHeader, HEADER_SIZE_SWGB]
    exact congrArg drsParseHeaderBuf hfs
  · intro h54
    have hlen : COPYRIGHT_SWGB.length = 54 := by decide
    have hd : decide (asciiCodes ((fsReadAlloc disk 84 0).take 54)
        = COPYRIGHT_SWGB) = false :=
      decide_eq_false (probe_fails_on_short disk h54)
    simp only [drsReadHeader, drsParseHeaderBuf, HEADER_SIZE_SWGB, hlen, hd]

/-- C5 amended witness: the concrete 3-byte input `[1, 2, 3]` is parsed
(no error) exactly like its 84-byte zero-padded image, as a base-variant
header. -/
theorem truncated_header_zero_padded_witness :
    drsReadHeader [1, 2, 3] =
      drsReadHeader ([1, 2, 3] ++ List.replicate 81 0) ∧
    (drsReadHeader [1, 2, 3]).fst = false :=
  have h := truncated_header_zero_padded [1, 2, 3] (by decide)
  ⟨h.1, h.2 (by decide)⟩

end GenieDRS

namespace GenieDRS

/-- Auxiliary for C6: a run of early read calls from a state whose
`numTables` is still falsy bumps both load counters once per call, since
each call invokes `drs.read` itself and `numTables` is only assigned when
a load completes. -/
theorem foldl_calls_from_falsy (k : Nat) :
    ∀ s : HandleState, jsFalsyNum s.numTables = true →
      (List.replicate k HandleEvent.call).foldl handleStep s =
        { s with loadsInFlight := s.loadsInFlight + k,
                 loadsStarted := s.loadsStarted + k } := by
  induction k with
  | zero => intro s _; simp
  | succ n ih =>
    intro s hs
    rw [List.replicate_succ, List.foldl_cons]
    have hstep : handleStep s HandleEvent.call =
        { s with loadsInFlight := s.loadsInFlight + 1,
                 loadsStarted := s.loadsStarted + 1 } := by
      simp [handleStep, hs]
    rw [hstep, ih _ (by simpa using hs)]
    have h1 : s.loadsInFlight + 1 + n = s.loadsInFlight + (n + 1) := by omega
    have h2 : s.loadsStarted + 1 + n = s.loadsStarted + (n + 1) := by omega
    simp [h1, h2]

/-- Auxiliary for C6: `getFile`/`getFiles` calls leave the handle state
untouched — they never start a load. -/
theorem foldl_lookups_id (k : Nat) :
    ∀ s : HandleState,
      (List.replicate k HandleEvent.lookup).foldl handleStep s = s := by
  induction k with
  | zero => intro s; simp
  | succ n ih =>
    intro s
    rw [List.replicate_succ, List.foldl_cons]
    have : handleStep s HandleEvent.lookup = s := rfl
    rw [this, ih]

/-- C6 counterexample: two `readFile`/`createReadStream` calls issued
before any directory load completes put TWO loads in flight on the same
handle — there is no loaded/loading flag and no queue, refuting "at most
one directory load is ever in flight per handle". -/
theorem double_directory_load :
    (runHandle [HandleEvent.call, HandleEvent.call]).loadsInFlight = 2 ∧
    ¬ (runHandle [HandleEvent.call, HandleEvent.call]).loadsInFlight ≤ 1 := by
  decide

/-- C6 amended: each `readFile`/`createReadStream` call issued while
`numTables` is still falsy starts its own directory load immediately, so
`k` early calls put `k` loads in flight; `getFile`/`getFiles` (lookup and
enumerate) never trigger a load at all. -/
theorem early_calls_each_start_load :
    (∀ k : Nat,
      (runHandle (List.replicate k HandleEvent.call)).loadsInFlight = k ∧
      (runHandle (List.replicate k HandleEvent.call)).loadsStarted = k) ∧
    (∀ k : Nat,
      runHandle (List.replicate k HandleEvent.lookup) = initHandle) := by
  constructor
  · intro k
    unfold runHandle
    rw [foldl_calls_from_falsy k initHandle rfl]
    constructor <;> simp [initHandle]
  · intro k
    unfold runHandle
    exact foldl_lookups_id k initHandle

/-- C9 counterexample: the payload whose first 8 bytes are
`[0xCA, 0xC1, 0xD3, 0xC3, 0xAD, 0xD0, 0xC1, 0xCC]` does not equal the
`'JASC-PAL'` magic bytes, yet a `'bina'` entry carrying it is classified
Palette by the code, because `toString('ascii')` strips each byte's high
bit before the comparison — refuting the claim that Palette occurs
exactly when the first 8 payload bytes equal the magic prefix. -/
theorem palette_sniff_masked_counterexample :
    classify tagBINA [202, 193, 211, 195, 173, 208, 193, 204] =
      FileClass.Palette ∧
    ¬ (([202, 193, 211, 195, 173, 208, 193, 204] : List Nat).take 8 =
      JASC_PAL) := by
  decide

/-- C9 amended: the dispatch of `readFile` is a total function into the
closed set {Sprite, Audio, Palette, Generic}.  Sprite and Audio depend
only on the tag (`'slp '` and `'wav '` respectively); Palette occurs
exactly when the tag is the generic-binary tag `'bina'` (which would
otherwise fall to the Generic branch) and the payload's first 8 bytes,
decoded as ASCII with the high bit of each byte stripped, equal
`'JASC-PAL'`; every other combination gives Generic. -/
theorem classify_closed_dispatch (type buf : List Nat) :
    (classify type buf = FileClass.Sprite ↔ type = tagSLP) ∧
    (classify type buf = FileClass.Audio ↔ type = tagWAV) ∧
    (classify type buf = FileClass.Palette ↔
      type = tagBINA ∧ asciiCodes (buf.take 8) = JASC_PAL) ∧
    (classify type buf = FileClass.Generic ↔
      type ≠ tagSLP ∧ type ≠ tagWAV ∧
        ¬ (type = tagBINA ∧ asciiCodes (buf.take 8) = JASC_PAL)) := by
  have dSW : tagSLP ≠ tagWAV := by decide
  have dSB : tagSLP ≠ tagBINA := by decide
  have dWS : tagWAV ≠ tagSLP := by decide
  have dWB : tagWAV ≠ tagBINA := by decide
  have dBS : tagBINA ≠ tagSLP := by decide
  have dBW : tagBINA ≠ tagWAV := by decide
  unfold classify
  split_ifs with h1 h2 h3
  · subst h1
    simp [dSW, dSB]
  · subst h2
    simp [dWS, dWB]
  · obtain ⟨h3a, h3b⟩ := h3
    subst h3a
    simp [dBS, dBW, h3b]
  · simp [h1, h2, h3]

end GenieDRS

namespace GenieDRS

/-- Auxiliary for C7: the `reduce`-with-concat of `getFiles` peels off an
accumulator. -/
theorem getFiles_foldl_acc (tables : List DRSTable) :
    ∀ acc : List FileEntry,
      tables.foldl (fun arr tb => arr ++ tb.files) acc =
        acc ++ tables.foldl (fun arr tb => arr ++ tb.files) [] := by
  induction tables with
  | nil => intro acc; simp
  | cons tb rest ih =>
    intro acc
    rw [List.foldl_cons, List.foldl_cons, ih (acc ++ tb.files),
      ih ([] ++ tb.files)]
    simp

/-- Auxiliary for C7: `getFiles` lists a head table's entries before the
remaining tables' entries. -/
theorem getFiles_cons (tb : DRSTable) (rest : List DRSTable) :
    getFiles (tb :: rest) = tb.files ++ getFiles rest := by
  unfold getFiles
  rw [List.foldl_cons, getFiles_foldl_acc]
  simp

/-- A demonstration archive for the C7 witness: two tables whose entry
lists both contain id 5, so the table-then-entry scan order is exercised. -/
def demoTables : List DRSTable :=
  [{ ext := tagSLP, offset := some 84, numFiles := 1,
     files := [{ id := 5, offset := some 108, size := some 2,
                 type := tagSLP, buffer := none }] },
   { ext := tagBINA, offset := some 96, numFiles := 2,
     files := [{ id := 9, offset := some 110, size := some 4,
                 type := tagBINA, buffer := none },
               { id := 5, offset := some 114, size := some 1,
                 type := tagBINA, buffer := none }] }]

/-- C7: on any archive whose tables satisfy the stored-count invariant
(`numFiles` equals the entry list length, which is what every table
constructed by the library's own read/build paths has), `getFile id` is
exactly the first match of the table-order-then-entry-order entry stream
`getFiles`, and an id held by no entry yields `null`.  Determinism under
repeated calls is inherent: `getFile` is a pure function of the archive
state and the id. -/
theorem getFile_first_match_spec (tables : List DRSTable) (id : Int)
    (wf : ∀ tb ∈ tables, tb.numFiles = (tb.files.length : Int)) :
    getFile tables id = (getFiles tables).find? (fun f => f.id == id) ∧
    ((∀ f ∈ getFiles tables, f.id ≠ id) → getFile tables id = none) := by
  have h1 : getFile tables id =
      (getFiles tables).find? (fun f => f.id == id) := by
    induction tables with
    | nil => simp [getFile, getFiles]
    | cons tb rest ih =>
      have htb : tb.numFiles = (tb.files.length : Int) := wf tb (by simp)
      have hwf : ∀ t ∈ rest, t.numFiles = (t.files.length : Int) :=
        fun t ht => wf t (by simp [ht])
      have htoNat : tb.numFiles.toNat = tb.files.length := by
        rw [htb]; simp
      rw [getFiles_cons, List.find?_append]
      simp only [getFile, htoNat, List.take_length]
      cases hfind : tb.files.find? (fun f => f.id == id) with
      | some f => simp [hfind, Option.or]
      | none => simp [hfind, Option.or, ih hwf]
  refine ⟨h1, fun hnone => ?_⟩
  rw [h1, List.find?_eq_none]
  intro f hf
  simpa using hnone f hf

/-- C7 witness: the spec theorem applied to the concrete two-table
archive `demoTables` (whose counts are well formed) and id 5. -/
theorem getFile_first_match_spec_witness :
    getFile demoTables 5 =
      (getFiles demoTables).find? (fun f => f.id == 5) ∧
    ((∀ f ∈ getFiles demoTables, f.id ≠ 5) → getFile demoTables 5 = none) :=
  getFile_first_match_spec demoTables 5 (by decide)

end GenieDRS

namespace GenieDRS

/-- Auxiliary for C8: JS `ToInt32` is the identity on values that already
fit in a nonnegative int32. -/
theorem toInt32_eq_self (n : Int) (h0 : 0 ≤ n) (h1 : n < 2147483648) :
    toInt32 n = n := by
  unfold toInt32
  omega

/-- Auxiliary for C8: the sign-propagating `>> 8` (floor division) agrees
with Euclidean division by the positive constant 256. -/
theorem fdiv_eq_ediv_256 (a : Int) : a.fdiv 256 = a / 256 :=
  Int.fdiv_eq_ediv a (by norm_num)

/-- Auxiliary for C8: decoding a 32-bit value packed from four bytes
(high byte below 128) recovers the bytes, most significant first. -/
theorem parseTableType_pack (c0 c1 c2 c3 : Nat)
    (h0 : c0 < 128) (h1 : c1 < 256) (h2 : c2 < 256) (h3 : c3 < 256) :
    parseTableType (c0 * 16777216 + c1 * 65536 + c2 * 256 + c3) =
      [c0, c1, c2, c3] := by
  simp only [parseTableType, toInt32, fdiv_eq_ediv_256, List.cons.injEq,
    and_true]
  refine ⟨?_, ?_, ?_, ?_⟩ <;> omega

/-- Auxiliary for C8: encoding four char codes (first below 128) packs
them into one value, most significant byte first; no int32 wrap-around
occurs on such inputs. -/
theorem serializeTableType_chars (c0 c1 c2 c3 : Nat)
    (h0 : c0 < 128) (h1 : c1 < 256) (h2 : c2 < 256) (_h3 : c3 < 256) :
    serializeTableType [c0, c1, c2, c3] =
      ((c0 * 16777216 + c1 * 65536 + c2 * 256 + c3 : Nat) : Int) := by
  simp only [serializeTableType, toInt32, List.getD_cons_zero,
    List.getD_cons_succ]
  omega

/-- C8: the table-tag codec functions are mutual inverses on 4-character
ASCII data.  Decoding the packed encoding of any 4-char-code ASCII string
yields the string again, and encoding the decoded string of any 32-bit
value packed from four ASCII bytes reproduces the value (as the uint32
the struct field writes). -/
theorem tableType_codec_mutual_inverse :
    (∀ s : List Nat, s.length = 4 → (∀ c ∈ s, c < 128) →
      parseTableType (serializeTableType s).toNat = s) ∧
    (∀ c0 c1 c2 c3 : Nat, c0 < 128 → c1 < 128 → c2 < 128 → c3 < 128 →
      serializeTableType
          (parseTableType (c0 * 16777216 + c1 * 65536 + c2 * 256 + c3)) =
        ((c0 * 16777216 + c1 * 65536 + c2 * 256 + c3 : Nat) : Int)) := by
  constructor
  · intro s hlen hascii
    match s, hlen with
    | [c0, c1, c2, c3], _ =>
      have h0 : c0 < 128 := hascii c0 (by simp)
      have h1 : c1 < 128 := hascii c1 (by simp)
      have h2 : c2 < 128 := hascii c2 (by simp)
      have h3 : c3 < 128 := hascii c3 (by simp)
      rw [serializeTableType_chars c0 c1 c2 c3 h0 (by omega) (by omega)
        (by omega)]
      rw [Int.toNat_natCast]
      exact parseTableType_pack c0 c1 c2 c3 h0 (by omega) (by omega)
        (by omega)
  · intro c0 c1 c2 c3 h0 h1 h2 h3
    rw [parseTableType_pack c0 c1 c2 c3 h0 (by omega) (by omega) (by omega)]
    exact serializeTableType_chars c0 c1 c2 c3 h0 (by omega) (by omega)
      (by omega)

/-- C8 witness: both codec directions at the concrete tag `'bina'`
(char codes `[98, 105, 110, 97]`, packed value `1651076705`). -/
theorem tableType_codec_mutual_inverse_witness :
    parseTableType (serializeTableType [98, 105, 110, 97]).toNat =
      [98, 105, 110, 97] ∧
    serializeTableType
        (parseTableType (98 * 16777216 + 105 * 65536 + 110 * 256 + 97)) =
      ((98 * 16777216 + 105 * 65536 + 110 * 256 + 97 : Nat) : Int) :=
  ⟨tableType_codec_mutual_inverse.1 [98, 105, 110, 97] rfl (by decide),
   tableType_codec_mutual_inverse.2 98 105 110 97 (by decide) (by decide)
     (by decide) (by decide)⟩

end GenieDRS

namespace GenieDRS

/-- C10: `createFileBufferCallback` only appends a write-pending entry
after its payload is fully materialized: the completed entry stored in
the table is `onbufferFile file buffer`, whose `size` is already resolved
to the payload's byte length, and it is the argument `cb` receives — so
the callback fires with the entry in the table and its size set.  The
size-resolution invariant over a table's entries is preserved by the
push, and the updated entry list is exactly the old one plus the
completed entry. -/
theorem onbuffer_size_resolution (file : FileEntry) (table : DRSTable)
    (buffer : List Nat)
    (hres : ∀ f ∈ table.files, sizeResolved f = true) :
    (onbufferTable file table buffer).files =
      table.files ++ [onbufferFile file buffer] ∧
    (onbufferFile file buffer).size = some ((buffer.length : Int)) ∧
    (onbufferFile file buffer).buffer = some buffer ∧
    sizeResolved (onbufferFile file buffer) = true ∧
    onbufferFile file buffer ∈ (onbufferTable file table buffer).files ∧
    (∀ f ∈ (onbufferTable file table buffer).files,
      sizeResolved f = true) := by
  refine ⟨rfl, rfl, rfl, ?_, ?_, ?_⟩
  · simp [sizeResolved, onbufferFile]
  · simp [onbufferTable]
  · intro f hf
    simp only [onbufferTable, List.mem_append, List.mem_singleton] at hf
    rcases hf with hf | hf
    · exact hres f hf
    · subst hf
      simp [sizeResolved, onbufferFile]

/-- C10 witness: the invariant theorem applied to the concrete pending
file `newFile 'bina' 3`, a table already holding one resolved entry, and
the payload `[9, 9]`. -/
theorem onbuffer_size_resolution_witness :
    (onbufferTable (newFile tagBINA 3)
        { ext := tagBINA, offset := some 120, numFiles := 1,
          files := [{ id := 2, offset := some 96, size := some 4,
                      type := tagBINA, buffer := none }] } [9, 9]).files =
      [{ id := 2, offset := some 96, size := some 4, type := tagBINA,
         buffer := none }] ++ [onbufferFile (newFile tagBINA 3) [9, 9]] ∧
    (onbufferFile (newFile tagBINA 3) [9, 9]).size = some 2 ∧
    (onbufferFile (newFile tagBINA 3) [9, 9]).buffer = some [9, 9] :=
  have h := onbuffer_size_resolution (newFile tagBINA 3)
    { ext := tagBINA, offset := some 120, numFiles := 1,
      files := [{ id := 2, offset := some 96, size := some 4,
                  type := tagBINA, buffer := none }] } [9, 9] (by decide)
  ⟨h.1, h.2.1, h.2.2.1⟩

end GenieDRS
